import Mathlib

set_option autoImplicit false

/-!
Verification of the Fireblocks raw-client core against its specification.

The definitions below are a shallow embedding of the repository's core
logic:

* `TransactionStatus`, `isTerminalStatus`, `isFailedStatus` embed the
  status model and the two type guards of `src/shared/types.ts`.
* `pollLoop`, `pollTransaction`, `pollTransactionUntilSuccess` embed the
  transaction poller of `src/unnamed/part_009` (shared/transaction-poller).
  Remote I/O is modelled by an oracle `fetch : Nat -> Option Snapshot`
  giving the result of the n-th `getTransactionById` call (`none` models a
  thrown network error), and by `cancelOk : Bool` giving the outcome of a
  `cancelTransactionById` call.  Wall-clock time is modelled by a counter
  that advances by `intervalMs` at each `sleep`, matching the loop whose
  only suspension is the sleep between fetches.
* `createSignedTransaction` and `extractSignedTransaction` embed the
  signature-reassembly stage of `src/EVM/web3_instance.refactored.ts`.
* `handleNativeTokenTransfer`, `legacyNativeTransfer`,
  `convertToSmallestTokenUnit`, `legacyErc20AmountInTokenUnits` embed the
  amount arithmetic of `src/EVM/transfer.refactored.ts`.
* `validateAmount` embeds `src/shared/validators.ts`.
* `selectUTXOsForAmount` (with `sortUTXOsDesc`, `selectLoop`) embeds the
  greedy UTXO selection of the Bitcoin signer, and
  `selectUTXOsForAmountHeap` runs it over an explicit array heap to make
  the no-mutation property of the input array statable.

Numeric amounts are embedded exactly: wei values as `Nat`, human decimal
amounts as rationals or as (mantissa, fraction-digit) pairs, never as
floating point.
-/

namespace FireblocksClient

/-- Remote transaction status, as enumerated by the signing service and
consumed by `src/shared/types.ts`.  `UNKNOWN n` stands for any
unrecognized or future status value. -/
inductive TransactionStatus where
  | SUBMITTED
  | QUEUED
  | PENDING_SIGNATURE
  | PENDING_AUTHORIZATION
  | BROADCASTING
  | CONFIRMING
  | COMPLETED
  | FAILED
  | BLOCKED
  | CANCELLED
  | REJECTED
  | UNKNOWN (tag : Nat)
deriving DecidableEq, Repr

/-- Embeds `isTerminalStatus` of `src/shared/types.ts` (lines 243-250):
true exactly for COMPLETED, FAILED, BLOCKED, CANCELLED. -/
def isTerminalStatus (status : TransactionStatus) : Bool :=
  match status with
  | TransactionStatus.COMPLETED => true
  | TransactionStatus.FAILED => true
  | TransactionStatus.BLOCKED => true
  | TransactionStatus.CANCELLED => true
  | _ => false

/-- Embeds `isFailedStatus` of `src/shared/types.ts` (lines 255-261):
true exactly for FAILED, BLOCKED, REJECTED. -/
def isFailedStatus (status : TransactionStatus) : Bool :=
  match status with
  | TransactionStatus.FAILED => true
  | TransactionStatus.BLOCKED => true
  | TransactionStatus.REJECTED => true
  | _ => false

/-- ECDSA signature components returned by the signing service. -/
structure Sig where
  r : Nat
  s : Nat
  v : Nat
deriving DecidableEq, Repr

/-- One entry of a transaction's `signedMessages` array. -/
structure SignedMessage where
  signature : Sig
deriving DecidableEq, Repr

/-- The transaction snapshot returned by `getTransactionById`:
its status and, for raw-signing requests, the optional `signedMessages`
array (`none` models the field being absent). -/
structure Snapshot where
  status : TransactionStatus
  signedMessages : Option (List SignedMessage)
deriving DecidableEq, Repr

/-- Errors raised by the poller, mirroring `src/shared/errors.ts`:
`initialFetch` is the `TransactionError` thrown when the very first
`getTransactionById` fails; `timeout` is `TransactionTimeoutError`
carrying the transaction id, the `timeoutMs` bound and the last-seen
status (`elapsedMs` records the model clock at the throw);
`txFailed` is the `TransactionError` thrown by
`pollTransactionUntilSuccess` on a non-COMPLETED terminal status;
`fuelOut` is a model artifact shown unreachable for positive intervals. -/
inductive PollErr where
  | initialFetch (transactionId : String)
  | timeout (transactionId : String) (timeoutMs : Nat)
      (lastStatus : TransactionStatus) (elapsedMs : Nat)
  | txFailed (transactionId : String) (status : TransactionStatus) (cancelled : Bool)
  | fuelOut
deriving DecidableEq, Repr

/-- The `PollingResult` of `src/shared/types.ts`, instrumented with
`cancelCalled` (whether `cancelTransactionById` was invoked) and the
model clock at return. -/
structure PollingResult where
  finalStatus : TransactionStatus
  transactionInfo : Snapshot
  cancelled : Bool
  cancelCalled : Bool
  elapsedMs : Nat
deriving DecidableEq, Repr

/-- Outcome of the polling while-loop of `pollTransaction`. -/
inductive LoopOutcome where
  | finished (status : TransactionStatus) (info : Snapshot) (elapsedMs : Nat)
  | timedOut (lastStatus : TransactionStatus) (elapsedMs : Nat)
  | fuelOut
deriving DecidableEq, Repr

/-- The `while (!isTerminalStatus(currentStatus))` loop of
`pollTransaction` (`src/unnamed/part_009`, lines 261-285).  Each
iteration: exit if the status is terminal; throw
`TransactionTimeoutError` if the elapsed clock exceeds `timeoutMs`;
otherwise sleep `intervalMs` and re-fetch, keeping the previous status
and snapshot when the fetch fails (`catch`/`continue`).  `k` is the index
of the next fetch; `fuel` bounds the recursion and is shown sufficient
below. -/
def pollLoop (fetch : Nat → Option Snapshot) (intervalMs timeoutMs : Nat) :
    Nat → TransactionStatus → Snapshot → Nat → Nat → LoopOutcome
  | 0, _, _, _, _ => LoopOutcome.fuelOut
  | fuel + 1, status, info, k, elapsed =>
    if isTerminalStatus status then
      LoopOutcome.finished status info elapsed
    else if timeoutMs < elapsed then
      LoopOutcome.timedOut status elapsed
    else
      match fetch k with
      | some snap =>
          pollLoop fetch intervalMs timeoutMs fuel snap.status snap (k + 1)
            (elapsed + intervalMs)
      | none =>
          pollLoop fetch intervalMs timeoutMs fuel status info (k + 1)
            (elapsed + intervalMs)

/-- Fuel that always suffices for `pollLoop` when `intervalMs > 0`. -/
def pollFuel (intervalMs timeoutMs : Nat) : Nat :=
  timeoutMs / intervalMs + 2

/-- Embeds `pollTransaction` of `src/unnamed/part_009` (lines 229-298).
The initial fetch failing throws a `TransactionError`; then the status
loop runs to a terminal status or a timeout; on a failure-class terminal
status `cancelTransactionById` is attempted (its success given by the
`cancelOk` oracle) and only the advisory `cancelled` flag records the
outcome. -/
def pollTransaction (fetch : Nat → Option Snapshot) (cancelOk : Bool)
    (transactionId : String) (intervalMs timeoutMs : Nat) :
    Except PollErr PollingResult :=
  match fetch 0 with
  | none => Except.error (PollErr.initialFetch transactionId)
  | some snap0 =>
    match pollLoop fetch intervalMs timeoutMs (pollFuel intervalMs timeoutMs)
        snap0.status snap0 1 0 with
    | LoopOutcome.fuelOut => Except.error PollErr.fuelOut
    | LoopOutcome.timedOut last elapsed =>
        Except.error (PollErr.timeout transactionId timeoutMs last elapsed)
    | LoopOutcome.finished status info elapsed =>
        let cancelCalled := isFailedStatus status
        Except.ok
          { finalStatus := status
            transactionInfo := info
            cancelled := cancelCalled && cancelOk
            cancelCalled := cancelCalled
            elapsedMs := elapsed }

/-- Embeds `pollTransactionUntilSuccess` of `src/unnamed/part_009`
(lines 332-351): return the snapshot when the final status is COMPLETED,
otherwise throw a `TransactionError` carrying the status and the
`cancelled` flag. -/
def pollTransactionUntilSuccess (fetch : Nat → Option Snapshot) (cancelOk : Bool)
    (transactionId : String) (intervalMs timeoutMs : Nat) :
    Except PollErr Snapshot :=
  match pollTransaction fetch cancelOk transactionId intervalMs timeoutMs with
  | Except.error e => Except.error e
  | Except.ok result =>
      if result.finalStatus = TransactionStatus.COMPLETED then
        Except.ok result.transactionInfo
      else
        Except.error
          (PollErr.txFailed transactionId result.finalStatus result.cancelled)

/-- Lowercase hex digit for a value below 16. -/
def hexDigit (n : Nat) : Char :=
  if n < 10 then Char.ofNat (48 + n) else Char.ofNat (87 + n)

/-- Two-digit lowercase hex rendering of one byte. -/
def byteToHex (b : Nat) : String :=
  String.mk [hexDigit (b / 16 % 16), hexDigit (b % 16)]

/-- Hex rendering of a byte sequence, as produced by `toString("hex")`. -/
def bytesToHex (bs : List Nat) : String :=
  String.join (bs.map byteToHex)

/-- The unsigned EVM transaction fields held by the `Transaction` object
built in `signTransactionViaFireblocks`. -/
structure UnsignedTx where
  nonce : Nat
  gasPrice : Nat
  gasLimit : Nat
  «to» : String
  value : Nat
  data : List Nat
deriving DecidableEq, Repr

/-- The field set of the reassembled signed transaction. -/
structure SignedTx where
  nonce : Nat
  gasPrice : Nat
  gasLimit : Nat
  «to» : String
  value : Nat
  data : List Nat
  r : Nat
  s : Nat
  v : Nat
deriving DecidableEq, Repr

/-- Embeds `createSignedTransaction` of
`src/EVM/web3_instance.refactored.ts` (lines 128-153): rebuild the
transaction from the original unsigned fields plus `r`/`s` taken from the
returned signature and `v = chainId*2 + (signature.v + 35)`, then
serialize and hex-encode with a `0x` prefix.  The RLP serializer of the
external `@ethereumjs/tx` library is a parameter. -/
def createSignedTransaction (serialize : SignedTx → List Nat)
    (originalTx : UnsignedTx) (signature : Sig) (chainId : Nat) : String :=
  "0x" ++ bytesToHex (serialize
    { nonce := originalTx.nonce
      gasPrice := originalTx.gasPrice
      gasLimit := originalTx.gasLimit
      «to» := originalTx.«to»
      value := originalTx.value
      data := originalTx.data
      r := signature.r
      s := signature.s
      v := chainId * 2 + (signature.v + 35) })

/-- Errors of the raw signing flow: a propagated poller error, or the
fatal `TransactionError` thrown when a completed transaction carries no
signed messages. -/
inductive SignErr where
  | poll (e : PollErr)
  | noSignature (transactionId : String)
deriving DecidableEq, Repr

/-- Embeds lines 194-204 of `signTransactionViaFireblocks`
(`src/EVM/web3_instance.refactored.ts`): given the terminal snapshot of a
successfully polled transaction, throw a `TransactionError` when
`signedMessages` is absent or empty, otherwise reassemble the signed
transaction from the first returned signature. -/
def extractSignedTransaction (serialize : SignedTx → List Nat)
    (transactionId : String) (tx : UnsignedTx) (chainId : Nat)
    (txInfo : Snapshot) : Except SignErr String :=
  match txInfo.signedMessages with
  | none => Except.error (SignErr.noSignature transactionId)
  | some [] => Except.error (SignErr.noSignature transactionId)
  | some (m :: _) =>
      Except.ok (createSignedTransaction serialize tx m.signature chainId)

/-- Embeds the polling and reconstruction stages of
`signTransactionViaFireblocks` (`src/EVM/web3_instance.refactored.ts`,
lines 164-205): drive the created transaction through
`pollTransactionUntilSuccess`, then extract the signature and reassemble
the signed transaction. -/
def signTransactionViaFireblocks (serialize : SignedTx → List Nat)
    (fetch : Nat → Option Snapshot) (cancelOk : Bool)
    (transactionId : String) (intervalMs timeoutMs : Nat)
    (tx : UnsignedTx) (chainId : Nat) : Except SignErr String :=
  match pollTransactionUntilSuccess fetch cancelOk transactionId intervalMs
      timeoutMs with
  | Except.error e => Except.error (SignErr.poll e)
  | Except.ok txInfo =>
      extractSignedTransaction serialize transactionId tx chainId txInfo

/-- Exact decimal amounts: `mantissa / 10 ^ fracDigits` in human units.
JavaScript renders such an amount as its decimal string, which
`web3.utils.toWei` parses by decimal shifting; the pair captures that
string exactly. -/
def toWeiDec (mantissa fracDigits : Nat) : Option Nat :=
  if fracDigits ≤ 18 then some (mantissa * 10 ^ (18 - fracDigits)) else none

/-- Embeds `convertToSmallestTokenUnit` of
`src/EVM/transfer.refactored.ts` (lines 339-353): shift the decimal
amount into wei-equivalent units via `toWei` (18 decimals), then divide
by `10^(18 - decimals)` with BigInt integer division.  `none` models the
throw for more than 18 fractional digits or `decimals > 18`. -/
def convertToSmallestTokenUnit (mantissa fracDigits decimals : Nat) :
    Option Nat :=
  match toWeiDec mantissa fracDigits with
  | none => none
  | some amountInWeiEquivalent =>
      if decimals ≤ 18 then
        some (amountInWeiEquivalent / 10 ^ (18 - decimals))
      else none

/-- Embeds the legacy ERC20 amount conversion of the old `transfer`
(`src/EVM/transfer.refactored.ts`, lines 559-560):
`BigInt(Math.floor(transferAmount)) * 10n ** BigInt(tokenDecimals)` —
the amount is floored to a whole-token integer before shifting. -/
def legacyErc20AmountInTokenUnits (mantissa fracDigits decimals : Nat) : Nat :=
  mantissa / 10 ^ fracDigits * 10 ^ decimals

/-- Transfer-engine errors relevant to the embedded arithmetic. -/
inductive TransferErr where
  | insufficientBalance (required available : String)
  | invalidAmount
deriving DecidableEq, Repr

/-- The transaction request passed to `web3.eth.signTransaction` by the
native-transfer handler. -/
structure NativeSignRequest where
  «to» : String
  value : Nat
  gasPrice : Nat
  gasLimit : Nat
deriving DecidableEq, Repr

/-- Embeds `handleNativeTokenTransfer` of
`src/EVM/transfer.refactored.ts` (lines 274-329): throw
`InsufficientBalanceError` on a zero balance; convert the requested
amount to wei with `toWei`; throw `InsufficientBalanceError` when it
exceeds the balance; otherwise sign a transaction whose value is the
converted amount, with the simple-transfer gas limit 21000. -/
def handleNativeTokenTransfer (recipientAddress : String)
    (balanceWei gasPriceWei : Nat) (mantissa fracDigits : Nat) :
    Except TransferErr NativeSignRequest :=
  if balanceWei = 0 then
    Except.error (TransferErr.insufficientBalance "0" "0")
  else
    match toWeiDec mantissa fracDigits with
    | none => Except.error TransferErr.invalidAmount
    | some transferAmountInWei =>
        if balanceWei < transferAmountInWei then
          Except.error (TransferErr.insufficientBalance
            (toString transferAmountInWei) (toString balanceWei))
        else
          Except.ok
            { «to» := recipientAddress
              value := transferAmountInWei
              gasPrice := gasPriceWei
              gasLimit := 21000 }

/-- Outcomes of the legacy native-token branch. -/
inductive LegacyNativeOutcome where
  | zeroBalanceAbort
  | zeroValueAbort
  | signed (valueWei : Int)
deriving DecidableEq, Repr

/-- Embeds the legacy native-token branch of the old `transfer`
(`src/EVM/transfer.refactored.ts`, lines 586-628): on a zero balance it
logs and returns; for a positive amount the value is the minimum of the
converted amount and the balance; for amount 0 the value is
`balance - gasPrice*21000` computed on big numbers (which may be
negative); a value equal to zero logs and returns, anything else is
signed. -/
def legacyNativeTransfer (balanceWei gasPriceWei mantissa fracDigits : Nat) :
    Option LegacyNativeOutcome :=
  if balanceWei = 0 then some LegacyNativeOutcome.zeroBalanceAbort
  else if 0 < mantissa then
    match toWeiDec mantissa fracDigits with
    | none => none
    | some transferAmountInWei =>
        let value : Int := min (transferAmountInWei : Int) (balanceWei : Int)
        if value = 0 then some LegacyNativeOutcome.zeroValueAbort
        else some (LegacyNativeOutcome.signed value)
  else
    let requiredGas : Int := (gasPriceWei : Int) * 21000
    let value : Int := (balanceWei : Int) - requiredGas
    if value = 0 then some LegacyNativeOutcome.zeroValueAbort
    else some (LegacyNativeOutcome.signed value)

/-- A JavaScript number argument: `NaN` or an exact (rational) value. -/
inductive JSNum where
  | nan
  | val (x : ℚ)
deriving DecidableEq

/-- The `ValidationError` of `src/shared/errors.ts`, reduced to the field
name and the reason string that parameterize its message. -/
structure ValidationError where
  field : String
  reason : String
deriving DecidableEq, Repr

/-- Constant `VALIDATION.MIN_TRANSACTION_AMOUNT` of `src/shared/constants.ts`. -/
def MIN_TRANSACTION_AMOUNT : ℚ := 1 / 1000000

/-- Embeds `validateAmount` of `src/shared/validators.ts` (lines 47-71):
reject NaN, negative amounts, zero when `allowZero` is false, and
positive amounts below `MIN_TRANSACTION_AMOUNT`. -/
def validateAmount (amount : JSNum) (fieldName : String) (allowZero : Bool) :
    Except ValidationError Unit :=
  match amount with
  | JSNum.nan => Except.error ⟨fieldName, "Must be a valid number"⟩
  | JSNum.val x =>
      if x < 0 then Except.error ⟨fieldName, "Cannot be negative"⟩
      else if allowZero = false ∧ x = 0 then
        Except.error ⟨fieldName, "Cannot be zero"⟩
      else if 0 < x ∧ x < MIN_TRANSACTION_AMOUNT then
        Except.error ⟨fieldName, "Must be at least 0.000001 or 0"⟩
      else Except.ok ()

/-- The `UTXO` of `src/shared/types.ts`; the decimal `amount` string is
carried as its exact rational value (`none` when the field is absent). -/
structure UTXO where
  txHash : String
  index : Nat
  amount : Option ℚ
  address : Option String
deriving DecidableEq

/-- Embeds `utxo.amount ? parseFloat(utxo.amount) : 0` of the selection code. -/
def utxoAmount (u : UTXO) : ℚ := u.amount.getD 0

/-- One insertion step of a stable descending sort by amount; mirrors the
order produced by `[...utxos].sort((a, b) => amountB - amountA)`. -/
def insertDesc (u : UTXO) : List UTXO → List UTXO
  | [] => [u]
  | v :: vs =>
      if utxoAmount v ≤ utxoAmount u then u :: v :: vs
      else v :: insertDesc u vs

/-- Stable descending-by-amount sort of a UTXO list. -/
def sortUTXOsDesc : List UTXO → List UTXO
  | [] => []
  | u :: us => insertDesc u (sortUTXOsDesc us)

/-- The accumulation loop of `selectUTXOsForAmount`
(`src/unnamed/part_000`, lines 433-440): walk the sorted list, breaking
as soon as the running total reaches the target, otherwise pushing the
next UTXO and adding its amount. -/
def selectLoop (targetAmount : ℚ) :
    List UTXO → List UTXO → ℚ → List UTXO × ℚ
  | [], selected, currentTotal => (selected, currentTotal)
  | u :: rest, selected, currentTotal =>
      if targetAmount ≤ currentTotal then (selected, currentTotal)
      else selectLoop targetAmount rest (selected ++ [u])
        (currentTotal + utxoAmount u)

/-- The message of the insufficient-UTXOs `ValidationError`. -/
def insufficientUTXOsMsg (required available : ℚ) : String :=
  s!"Insufficient UTXOs. Required: {required}, Available: {available}"

/-- Embeds `selectUTXOsForAmount` of `src/unnamed/part_000`
(lines 419-455): sort a copy of the UTXOs by amount descending,
accumulate largest-first until the running total reaches the target, and
throw a `ValidationError` naming the required and available totals when
even the full set falls short. -/
def selectUTXOsForAmount (utxos : List UTXO) (targetAmount : ℚ) :
    Except ValidationError (List UTXO) :=
  let sortedUTXOs := sortUTXOsDesc utxos
  let res := selectLoop targetAmount sortedUTXOs [] 0
  if res.2 < targetAmount then
    Except.error ⟨"targetAmount", insufficientUTXOsMsg targetAmount res.2⟩
  else
    Except.ok res.1

/-- Runs `selectUTXOsForAmount` over an explicit array heap (a store of
arrays addressed by index), making the JavaScript aliasing visible: the
spread `[...utxos]` allocates a fresh array at the end of the heap, and
`.sort()` mutates that fresh array in place, never the caller's array at
`r`. -/
def selectUTXOsForAmountHeap (heap : List (List UTXO)) (r : Nat)
    (targetAmount : ℚ) :
    Except ValidationError (List UTXO) × List (List UTXO) :=
  let copyRef := heap.length
  let heap1 := heap ++ [heap.getD r []]
  let heap2 := heap1.set copyRef (sortUTXOsDesc (heap1.getD copyRef []))
  let res := selectLoop targetAmount (heap2.getD copyRef []) [] 0
  (if res.2 < targetAmount then
     Except.error ⟨"targetAmount", insufficientUTXOsMsg targetAmount res.2⟩
   else Except.ok res.1, heap2)

/-- Total amount of a UTXO list, as accumulated by the selection code. -/
def sumAmounts (l : List UTXO) : ℚ :=
  (l.map utxoAmount).sum

/-- Accumulator-free form of `selectLoop`: the elements taken from the
(sorted) list before the running total first reaches the target. -/
def greedyTake (targetAmount runningTotal : ℚ) : List UTXO → List UTXO
  | [] => []
  | u :: rest =>
      if targetAmount ≤ runningTotal then []
      else u :: greedyTake targetAmount (runningTotal + utxoAmount u) rest

/-- Fixture UTXO used by concrete witnesses. -/
def sampleUTXO (a : ℚ) : UTXO :=
  { txHash := "hash", index := 0, amount := some a, address := none }

/-- Fixture serializer used by concrete witnesses of the signing flow. -/
def sampleSerialize (st : SignedTx) : List Nat :=
  [st.nonce, st.v]

/-- Fixture polling result used by concrete witnesses. -/
def sampleFailedResult : PollingResult :=
  { finalStatus := TransactionStatus.FAILED
    transactionInfo := { status := TransactionStatus.FAILED, signedMessages := none }
    cancelled := false
    cancelCalled := true
    elapsedMs := 0 }

/-- C1: the failure bucket is exactly FAILED, BLOCKED, REJECTED, but
REJECTED is not treated as terminal by the poller: `isTerminalStatus`
returns false on it, so a transaction whose status is REJECTED is polled
until the timeout fires instead of stopping — contradicting the claim
(and leaving the REJECTED case of `isFailedStatus` unreachable after the
loop). -/
theorem rejected_failure_but_not_terminal :
    isFailedStatus TransactionStatus.REJECTED = true ∧
    isTerminalStatus TransactionStatus.REJECTED = false ∧
    pollTransaction (fun _ => some ⟨TransactionStatus.REJECTED, none⟩) true
        "tx" 1 3
      = Except.error (PollErr.timeout "tx" 3 TransactionStatus.REJECTED 4) :=
  ⟨rfl, rfl, rfl⟩

/-- C2: the refactored native-transfer handler does not implement the
FULL_BALANCE sentinel: with amount 0, balance 10^18 wei and gas price
5*10^10 wei it signs a transaction of value 0 wei instead of
balance - gasPrice*21000 = 998950000000000000 wei; only the legacy
branch computes that difference (and the legacy branch signs a negative
value, with no InsufficientBalanceError, when the balance cannot cover
the gas). -/
theorem fullBalance_native_value_not_balance_minus_gas :
    handleNativeTokenTransfer "0xrecipient" 1000000000000000000 50000000000 0 0
      = Except.ok
          { «to» := "0xrecipient", value := 0, gasPrice := 50000000000,
            gasLimit := 21000 } ∧
    1000000000000000000 - 50000000000 * 21000 = 998950000000000000 ∧
    (0 : Nat) ≠ 998950000000000000 ∧
    legacyNativeTransfer 1000000000000000000 50000000000 0 0
      = some (LegacyNativeOutcome.signed 998950000000000000) ∧
    legacyNativeTransfer 1000 50000000000 0 0
      = some (LegacyNativeOutcome.signed ((1000 : Int) - 50000000000 * 21000)) :=
  ⟨rfl, by norm_num, by norm_num, rfl, by norm_num [legacyNativeTransfer, toWeiDec]⟩

/-- C7 counterexample: the legacy ERC20 amount conversion floors the
amount to a whole-token integer before shifting, so 0.1 tokens at 18
decimals convert to 0 smallest units, not 100000000000000000. -/
theorem legacy_erc20_conversion_floors :
    legacyErc20AmountInTokenUnits 1 1 18 = 0 ∧
    (0 : Nat) ≠ 100000000000000000 :=
  ⟨rfl, by norm_num⟩

/-- C7 amended: the refactored conversion is exact integer
decimal-shifting: whenever the amount has at most `decimals` fractional
digits and `decimals ≤ 18`, the result is exactly the amount scaled by
`10 ^ decimals`, with no rounding. -/
theorem convertToSmallestTokenUnit_exact (mantissa fracDigits decimals : Nat)
    (hfd : fracDigits ≤ decimals) (hd : decimals ≤ 18) :
    convertToSmallestTokenUnit mantissa fracDigits decimals
      = some (mantissa * 10 ^ (decimals - fracDigits)) := by
  have h18 : fracDigits ≤ 18 := le_trans hfd hd
  have hwei : toWeiDec mantissa fracDigits
      = some (mantissa * 10 ^ (18 - fracDigits)) := by
    unfold toWeiDec
    rw [if_pos h18]
  have hsplit : 18 - fracDigits = (decimals - fracDigits) + (18 - decimals) := by
    omega
  unfold convertToSmallestTokenUnit
  simp only [hwei]
  rw [if_pos hd]
  congr 1
  rw [hsplit, pow_add, ← mul_assoc]
  exact Nat.mul_div_cancel _ (pow_pos (by norm_num) _)

/-- C7 amended, concrete instance: 0.1 tokens at 18 decimals convert to
exactly 100000000000000000 smallest units. -/
theorem convertToSmallestTokenUnit_exact_witness :
    1 ≤ 18 ∧
    convertToSmallestTokenUnit 1 1 18 = some (1 * 10 ^ (18 - 1)) ∧
    1 * 10 ^ (18 - 1) = 100000000000000000 :=
  ⟨by norm_num,
   convertToSmallestTokenUnit_exact 1 1 18 (by norm_num) (le_refl 18),
   by norm_num⟩

/-- C9 counterexample: the finite non-negative amount 0.0000001 is
rejected by `validateAmount` with a ValidationError, because it lies
below `MIN_TRANSACTION_AMOUNT`. -/
theorem validateAmount_rejects_below_minimum :
    validateAmount (JSNum.val (1 / 10000000)) "transferAmount" true
      = Except.error
          { field := "transferAmount",
            reason := "Must be at least 0.000001 or 0" } := by
  simp only [validateAmount]
  rw [if_neg (show ¬ ((1 : ℚ) / 10000000) < 0 by norm_num),
    if_neg (show ¬ (true = false ∧ (1 : ℚ) / 10000000 = 0) by simp),
    if_pos (show 0 < (1 : ℚ) / 10000000 ∧
      (1 : ℚ) / 10000000 < MIN_TRANSACTION_AMOUNT by
        constructor <;> norm_num [MIN_TRANSACTION_AMOUNT])]

/-- C9 amended: `validateAmount` accepts zero (the FULL_BALANCE
sentinel) and every amount of at least `MIN_TRANSACTION_AMOUNT`
(0.000001); it rejects NaN, negative amounts, and positive amounts below
that minimum, each with a synchronous ValidationError. -/
theorem validateAmount_accept_reject_sets (x : ℚ)
    (hx : x = 0 ∨ MIN_TRANSACTION_AMOUNT ≤ x) :
    validateAmount (JSNum.val x) "transferAmount" true = Except.ok () ∧
    validateAmount JSNum.nan "transferAmount" true
      = Except.error
          { field := "transferAmount", reason := "Must be a valid number" } ∧
    (∀ y : ℚ, y < 0 →
      validateAmount (JSNum.val y) "transferAmount" true
        = Except.error
            { field := "transferAmount", reason := "Cannot be negative" }) ∧
    (∀ y : ℚ, 0 < y → y < MIN_TRANSACTION_AMOUNT →
      validateAmount (JSNum.val y) "transferAmount" true
        = Except.error
            { field := "transferAmount",
              reason := "Must be at least 0.000001 or 0" }) := by
  have hmin : (0 : ℚ) < MIN_TRANSACTION_AMOUNT := by
    norm_num [MIN_TRANSACTION_AMOUNT]
  refine ⟨?_, rfl, ?_, ?_⟩
  · have hx0 : ¬ x < 0 := by
      rcases hx with h | h
      · simp [h]
      · linarith
    have hx2 : ¬ (true = false ∧ x = 0) := by simp
    have hx3 : ¬ (0 < x ∧ x < MIN_TRANSACTION_AMOUNT) := by
      rcases hx with h | h
      · simp [h]
      · rintro ⟨_, hlt⟩
        linarith
    simp only [validateAmount]
    rw [if_neg hx0, if_neg hx2, if_neg hx3]
  · intro y hy
    simp only [validateAmount]
    rw [if_pos hy]
  · intro y hy0 hym
    simp only [validateAmount]
    rw [if_neg (show ¬ y < 0 by linarith), if_neg (show ¬ (true = false ∧ y = 0) by simp),
      if_pos ⟨hy0, hym⟩]

/-- C9 amended, concrete instance: amount 0 (FULL_BALANCE) is accepted. -/
theorem validateAmount_accept_reject_sets_witness :
    ((0 : ℚ) = 0 ∨ MIN_TRANSACTION_AMOUNT ≤ (0 : ℚ)) ∧
    validateAmount (JSNum.val 0) "transferAmount" true = Except.ok () :=
  ⟨Or.inl rfl, (validateAmount_accept_reject_sets 0 (Or.inl rfl)).1⟩

end FireblocksClient

namespace FireblocksClient

lemma pollLoop_succ_terminal (fetch : Nat → Option Snapshot)
    (intervalMs timeoutMs fuel : Nat) (status : TransactionStatus)
    (info : Snapshot) (k elapsed : Nat) (h : isTerminalStatus status = true) :
    pollLoop fetch intervalMs timeoutMs (fuel + 1) status info k elapsed
      = LoopOutcome.finished status info elapsed := by
  simp [pollLoop, h]

lemma pollLoop_succ_timeout (fetch : Nat → Option Snapshot)
    (intervalMs timeoutMs fuel : Nat) (status : TransactionStatus)
    (info : Snapshot) (k elapsed : Nat) (h1 : isTerminalStatus status = false)
    (h2 : timeoutMs < elapsed) :
    pollLoop fetch intervalMs timeoutMs (fuel + 1) status info k elapsed
      = LoopOutcome.timedOut status elapsed := by
  simp [pollLoop, h1, h2]

lemma pollLoop_succ_fetch_some (fetch : Nat → Option Snapshot)
    (intervalMs timeoutMs fuel : Nat) (status : TransactionStatus)
    (info : Snapshot) (k elapsed : Nat) (snap : Snapshot)
    (h1 : isTerminalStatus status = false) (h2 : ¬ timeoutMs < elapsed)
    (h3 : fetch k = some snap) :
    pollLoop fetch intervalMs timeoutMs (fuel + 1) status info k elapsed
      = pollLoop fetch intervalMs timeoutMs fuel snap.status snap (k + 1)
          (elapsed + intervalMs) := by
  simp [pollLoop, h1, h2, h3]

lemma pollLoop_succ_fetch_none (fetch : Nat → Option Snapshot)
    (intervalMs timeoutMs fuel : Nat) (status : TransactionStatus)
    (info : Snapshot) (k elapsed : Nat)
    (h1 : isTerminalStatus status = false) (h2 : ¬ timeoutMs < elapsed)
    (h3 : fetch k = none) :
    pollLoop fetch intervalMs timeoutMs (fuel + 1) status info k elapsed
      = pollLoop fetch intervalMs timeoutMs fuel status info (k + 1)
          (elapsed + intervalMs) := by
  simp [pollLoop, h1, h2, h3]

lemma pollTransaction_eq_of_fetch0 (fetch : Nat → Option Snapshot)
    (cancelOk : Bool) (transactionId : String) (intervalMs timeoutMs : Nat)
    (snap0 : Snapshot) (h0 : fetch 0 = some snap0) :
    pollTransaction fetch cancelOk transactionId intervalMs timeoutMs
      = match pollLoop fetch intervalMs timeoutMs
            (pollFuel intervalMs timeoutMs) snap0.status snap0 1 0 with
        | LoopOutcome.fuelOut => Except.error PollErr.fuelOut
        | LoopOutcome.timedOut last elapsed =>
            Except.error (PollErr.timeout transactionId timeoutMs last elapsed)
        | LoopOutcome.finished status info elapsed =>
            Except.ok
              { finalStatus := status
                transactionInfo := info
                cancelled := isFailedStatus status && cancelOk
                cancelCalled := isFailedStatus status
                elapsedMs := elapsed } := by
  unfold pollTransaction
  rw [h0]

lemma pollTransaction_eq_initialFetch (fetch : Nat → Option Snapshot)
    (cancelOk : Bool) (transactionId : String) (intervalMs timeoutMs : Nat)
    (h0 : fetch 0 = none) :
    pollTransaction fetch cancelOk transactionId intervalMs timeoutMs
      = Except.error (PollErr.initialFetch transactionId) := by
  unfold pollTransaction
  rw [h0]

end FireblocksClient

namespace FireblocksClient

lemma timeoutMs_lt_budget (intervalMs timeoutMs : Nat) (h : 0 < intervalMs) :
    timeoutMs < (timeoutMs / intervalMs + 1) * intervalMs := by
  have h1 := Nat.div_add_mod timeoutMs intervalMs
  have h2 := Nat.mod_lt timeoutMs h
  calc timeoutMs
      = intervalMs * (timeoutMs / intervalMs) + timeoutMs % intervalMs :=
        h1.symm
    _ < intervalMs * (timeoutMs / intervalMs) + intervalMs := by omega
    _ = (timeoutMs / intervalMs + 1) * intervalMs := by ring

lemma pollLoop_timedOut_of_never_terminal (fetch : Nat → Option Snapshot)
    (intervalMs timeoutMs : Nat)
    (hnt : ∀ k snap, fetch k = some snap → isTerminalStatus snap.status = false) :
    ∀ (fuel : Nat) (status : TransactionStatus) (info : Snapshot) (k elapsed : Nat),
      isTerminalStatus status = false →
      elapsed ≤ timeoutMs + intervalMs →
      timeoutMs < elapsed + fuel * intervalMs →
      ∃ last el,
        pollLoop fetch intervalMs timeoutMs (fuel + 1) status info k elapsed
          = LoopOutcome.timedOut last el ∧
        timeoutMs < el ∧ el ≤ timeoutMs + intervalMs ∧
        (last = status ∨ ∃ j snap, fetch j = some snap ∧ snap.status = last) := by
  intro fuel
  induction fuel with
  | zero =>
    intro status info k elapsed hst hinv hbud
    simp only [Nat.zero_mul, Nat.add_zero] at hbud
    exact ⟨status, elapsed,
      pollLoop_succ_timeout fetch intervalMs timeoutMs 0 status info k elapsed
        hst hbud, hbud, hinv, Or.inl rfl⟩
  | succ n ih =>
    intro status info k elapsed hst hinv hbud
    by_cases htime : timeoutMs < elapsed
    · exact ⟨status, elapsed,
        pollLoop_succ_timeout fetch intervalMs timeoutMs (n + 1) status info k
          elapsed hst htime, htime, hinv, Or.inl rfl⟩
    · have hinv' : elapsed + intervalMs ≤ timeoutMs + intervalMs := by omega
      have hbud' : timeoutMs < (elapsed + intervalMs) + n * intervalMs := by
        have : elapsed + (n + 1) * intervalMs
            = (elapsed + intervalMs) + n * intervalMs := by ring
        omega
      cases hf : fetch k with
      | some snap =>
        have hst' := hnt k snap hf
        obtain ⟨last, el, heq, hb1, hb2, hprov⟩ :=
          ih snap.status snap (k + 1) (elapsed + intervalMs) hst' hinv' hbud'
        refine ⟨last, el, ?_, hb1, hb2, ?_⟩
        · rw [pollLoop_succ_fetch_some fetch intervalMs timeoutMs (n + 1) status
            info k elapsed snap hst htime hf]
          exact heq
        · rcases hprov with h | h
          · exact Or.inr ⟨k, snap, hf, h.symm⟩
          · exact Or.inr h
      | none =>
        obtain ⟨last, el, heq, hb1, hb2, hprov⟩ :=
          ih status info (k + 1) (elapsed + intervalMs) hst hinv' hbud'
        refine ⟨last, el, ?_, hb1, hb2, hprov⟩
        rw [pollLoop_succ_fetch_none fetch intervalMs timeoutMs (n + 1) status
          info k elapsed hst htime hf]
        exact heq

lemma pollLoop_ne_fuelOut (fetch : Nat → Option Snapshot)
    (intervalMs timeoutMs : Nat) :
    ∀ (fuel : Nat) (status : TransactionStatus) (info : Snapshot) (k elapsed : Nat),
      timeoutMs < elapsed + fuel * intervalMs →
      pollLoop fetch intervalMs timeoutMs (fuel + 1) status info k elapsed
        ≠ LoopOutcome.fuelOut := by
  intro fuel
  induction fuel with
  | zero =>
    intro status info k elapsed hbud
    simp only [Nat.zero_mul, Nat.add_zero] at hbud
    cases hst : isTerminalStatus status with
    | true =>
      rw [pollLoop_succ_terminal fetch intervalMs timeoutMs 0 status info k
        elapsed hst]
      simp
    | false =>
      rw [pollLoop_succ_timeout fetch intervalMs timeoutMs 0 status info k
        elapsed hst hbud]
      simp
  | succ n ih =>
    intro status info k elapsed hbud
    cases hst : isTerminalStatus status with
    | true =>
      rw [pollLoop_succ_terminal fetch intervalMs timeoutMs (n + 1) status info
        k elapsed hst]
      simp
    | false =>
      by_cases htime : timeoutMs < elapsed
      · rw [pollLoop_succ_timeout fetch intervalMs timeoutMs (n + 1) status
          info k elapsed hst htime]
        simp
      · have hbud' : timeoutMs < (elapsed + intervalMs) + n * intervalMs := by
          have : elapsed + (n + 1) * intervalMs
              = (elapsed + intervalMs) + n * intervalMs := by ring
          omega
        cases hf : fetch k with
        | some snap =>
          rw [pollLoop_succ_fetch_some fetch intervalMs timeoutMs (n + 1)
            status info k elapsed snap hst htime hf]
          exact ih snap.status snap (k + 1) (elapsed + intervalMs) hbud'
        | none =>
          rw [pollLoop_succ_fetch_none fetch intervalMs timeoutMs (n + 1)
            status info k elapsed hst htime hf]
          exact ih status info (k + 1) (elapsed + intervalMs) hbud'

lemma pollLoop_finished_terminal (fetch : Nat → Option Snapshot)
    (intervalMs timeoutMs : Nat) :
    ∀ (fuel : Nat) (status : TransactionStatus) (info : Snapshot)
      (k elapsed : Nat) (st : TransactionStatus) (inf : Snapshot) (el : Nat),
      pollLoop fetch intervalMs timeoutMs fuel status info k elapsed
        = LoopOutcome.finished st inf el →
      isTerminalStatus st = true := by
  intro fuel
  induction fuel with
  | zero =>
    intro status info k elapsed st inf el h
    simp [pollLoop] at h
  | succ n ih =>
    intro status info k elapsed st inf el h
    cases hst : isTerminalStatus status with
    | true =>
      rw [pollLoop_succ_terminal fetch intervalMs timeoutMs n status info k
        elapsed hst] at h
      cases h
      exact hst
    | false =>
      by_cases htime : timeoutMs < elapsed
      · rw [pollLoop_succ_timeout fetch intervalMs timeoutMs n status info k
          elapsed hst htime] at h
        cases h
      · cases hf : fetch k with
        | some snap =>
          rw [pollLoop_succ_fetch_some fetch intervalMs timeoutMs n status info
            k elapsed snap hst htime hf] at h
          exact ih snap.status snap (k + 1) (elapsed + intervalMs) st inf el h
        | none =>
          rw [pollLoop_succ_fetch_none fetch intervalMs timeoutMs n status info
            k elapsed hst htime hf] at h
          exact ih status info (k + 1) (elapsed + intervalMs) st inf el h

end FireblocksClient

namespace FireblocksClient

lemma pollTransaction_eq_finished (fetch : Nat → Option Snapshot)
    (cancelOk : Bool) (transactionId : String) (intervalMs timeoutMs : Nat)
    (snap0 : Snapshot) (st : TransactionStatus) (inf : Snapshot) (el : Nat)
    (h0 : fetch 0 = some snap0)
    (hl : pollLoop fetch intervalMs timeoutMs (pollFuel intervalMs timeoutMs)
      snap0.status snap0 1 0 = LoopOutcome.finished st inf el) :
    pollTransaction fetch cancelOk transactionId intervalMs timeoutMs
      = Except.ok
          { finalStatus := st
            transactionInfo := inf
            cancelled := isFailedStatus st && cancelOk
            cancelCalled := isFailedStatus st
            elapsedMs := el } := by
  rw [pollTransaction_eq_of_fetch0 fetch cancelOk transactionId intervalMs
    timeoutMs snap0 h0, hl]

lemma pollTransaction_eq_timedOut (fetch : Nat → Option Snapshot)
    (cancelOk : Bool) (transactionId : String) (intervalMs timeoutMs : Nat)
    (snap0 : Snapshot) (last : TransactionStatus) (el : Nat)
    (h0 : fetch 0 = some snap0)
    (hl : pollLoop fetch intervalMs timeoutMs (pollFuel intervalMs timeoutMs)
      snap0.status snap0 1 0 = LoopOutcome.timedOut last el) :
    pollTransaction fetch cancelOk transactionId intervalMs timeoutMs
      = Except.error (PollErr.timeout transactionId timeoutMs last el) := by
  rw [pollTransaction_eq_of_fetch0 fetch cancelOk transactionId intervalMs
    timeoutMs snap0 h0, hl]

/-- C3 -/
theorem pollTransaction_times_out
    (fetch : Nat → Option Snapshot) (cancelOk : Bool) (transactionId : String)
    (intervalMs timeoutMs : Nat) (hpos : 0 < intervalMs)
    (hnt : ∀ k snap, fetch k = some snap → isTerminalStatus snap.status = false)
    (snap0 : Snapshot) (h0 : fetch 0 = some snap0) :
    ∃ last elapsed,
      pollTransaction fetch cancelOk transactionId intervalMs timeoutMs
        = Except.error (PollErr.timeout transactionId timeoutMs last elapsed) ∧
      timeoutMs < elapsed ∧ elapsed ≤ timeoutMs + intervalMs ∧
      ∃ j snap, fetch j = some snap ∧ snap.status = last := by
  have hbud : timeoutMs < 0 + (timeoutMs / intervalMs + 1) * intervalMs := by
    simpa using timeoutMs_lt_budget intervalMs timeoutMs hpos
  obtain ⟨last, el, heq, hb1, hb2, hprov⟩ :=
    pollLoop_timedOut_of_never_terminal fetch intervalMs timeoutMs hnt
      (timeoutMs / intervalMs + 1) snap0.status snap0 1 0
      (hnt 0 snap0 h0) (by omega) hbud
  have hfuel : pollFuel intervalMs timeoutMs
      = (timeoutMs / intervalMs + 1) + 1 := by
    simp [pollFuel]
  have heq' : pollLoop fetch intervalMs timeoutMs
      (pollFuel intervalMs timeoutMs) snap0.status snap0 1 0
      = LoopOutcome.timedOut last el := by
    rw [hfuel]
    exact heq
  refine ⟨last, el, ?_, hb1, hb2, ?_⟩
  · exact pollTransaction_eq_timedOut fetch cancelOk transactionId intervalMs
      timeoutMs snap0 last el h0 heq'
  · rcases hprov with h | h
    · exact ⟨0, snap0, h0, h.symm⟩
    · exact h

/-- C3 witness -/
theorem pollTransaction_times_out_witness :
    0 < 3 ∧
    ∃ last elapsed,
      pollTransaction (fun _ => some ⟨TransactionStatus.SUBMITTED, none⟩) true
          "tx" 3 7
        = Except.error (PollErr.timeout "tx" 7 last elapsed) ∧
      7 < elapsed ∧ elapsed ≤ 7 + 3 ∧
      ∃ j snap,
        (fun _ : Nat => some (⟨TransactionStatus.SUBMITTED, none⟩ : Snapshot)) j
          = some snap ∧ snap.status = last :=
  ⟨by norm_num,
   pollTransaction_times_out _ true "tx" 3 7 (by norm_num)
     (fun k snap h => by
       injection h with h'
       rw [← h']
       rfl)

     ⟨TransactionStatus.SUBMITTED, none⟩ rfl⟩

/-- C5 -/
theorem pollTransaction_cancels_iff_failed
    (fetch : Nat → Option Snapshot) (cancelOk : Bool) (transactionId : String)
    (intervalMs timeoutMs : Nat) (res : PollingResult)
    (h : pollTransaction fetch cancelOk transactionId intervalMs timeoutMs
      = Except.ok res) :
    res.cancelCalled = isFailedStatus res.finalStatus ∧
    isTerminalStatus res.finalStatus = true ∧
    (res.finalStatus = TransactionStatus.CANCELLED → res.cancelCalled = false) ∧
    (res.finalStatus = TransactionStatus.FAILED → res.cancelCalled = true) ∧
    res.cancelled = (res.cancelCalled && cancelOk) ∧
    (cancelOk = false → res.cancelled = false) ∧
    (∀ cancelOk2 res2,
      pollTransaction fetch cancelOk2 transactionId intervalMs timeoutMs
        = Except.ok res2 →
      res2.finalStatus = res.finalStatus ∧
      res2.cancelCalled = res.cancelCalled) := by
  cases hf0 : fetch 0 with
  | none =>
    rw [pollTransaction_eq_initialFetch fetch cancelOk transactionId intervalMs
      timeoutMs hf0] at h
    simp at h
  | some snap0 =>
    cases hl : pollLoop fetch intervalMs timeoutMs
        (pollFuel intervalMs timeoutMs) snap0.status snap0 1 0 with
    | fuelOut =>
      rw [pollTransaction_eq_of_fetch0 fetch cancelOk transactionId intervalMs
        timeoutMs snap0 hf0, hl] at h
      simp at h
    | timedOut last el =>
      rw [pollTransaction_eq_timedOut fetch cancelOk transactionId intervalMs
        timeoutMs snap0 last el hf0 hl] at h
      simp at h
    | finished st inf el =>
      have h2 := (pollTransaction_eq_finished fetch cancelOk transactionId
        intervalMs timeoutMs snap0 st inf el hf0 hl).symm.trans h
      injection h2 with h3
      subst h3
      refine ⟨rfl,
        pollLoop_finished_terminal fetch intervalMs timeoutMs
          (pollFuel intervalMs timeoutMs) snap0.status snap0 1 0 st inf el hl,
        ?_, ?_, rfl, ?_, ?_⟩
      · intro hc
        have hc' : st = TransactionStatus.CANCELLED := hc
        show isFailedStatus st = false
        rw [hc']
        rfl
      · intro hc
        have hc' : st = TransactionStatus.FAILED := hc
        show isFailedStatus st = true
        rw [hc']
        rfl
      · intro hc
        show (isFailedStatus st && cancelOk) = false
        rw [hc]
        simp
      · intro cancelOk2 res2 h2
        have hx := (pollTransaction_eq_finished fetch cancelOk2 transactionId
          intervalMs timeoutMs snap0 st inf el hf0 hl).symm.trans h2
        injection hx with hx3
        subst hx3
        exact ⟨rfl, rfl⟩

/-- C5 witness -/
theorem pollTransaction_cancels_iff_failed_witness :
    pollTransaction (fun _ => some ⟨TransactionStatus.FAILED, none⟩) false
        "tx" 1 3
      = Except.ok sampleFailedResult ∧
    (sampleFailedResult.cancelCalled
        = isFailedStatus sampleFailedResult.finalStatus ∧
      isTerminalStatus sampleFailedResult.finalStatus = true ∧
      (sampleFailedResult.finalStatus = TransactionStatus.CANCELLED →
        sampleFailedResult.cancelCalled = false) ∧
      (sampleFailedResult.finalStatus = TransactionStatus.FAILED →
        sampleFailedResult.cancelCalled = true) ∧
      sampleFailedResult.cancelled
        = (sampleFailedResult.cancelCalled && false) ∧
      (false = false → sampleFailedResult.cancelled = false) ∧
      (∀ cancelOk2 res2,
        pollTransaction (fun _ => some ⟨TransactionStatus.FAILED, none⟩)
            cancelOk2 "tx" 1 3
          = Except.ok res2 →
        res2.finalStatus = sampleFailedResult.finalStatus ∧
        res2.cancelCalled = sampleFailedResult.cancelCalled)) :=
  ⟨rfl,
   pollTransaction_cancels_iff_failed
     (fun _ => some ⟨TransactionStatus.FAILED, none⟩) false "tx" 1 3
     sampleFailedResult rfl⟩

/-- C8 counterexample -/
theorem pollTransaction_initial_fetch_error_aborts :
    pollTransaction (fun _ => none) true "tx1" 5 10
      = Except.error (PollErr.initialFetch "tx1") := rfl

/-- C8 amended -/
theorem pollTransaction_inloop_fetch_errors_retry
    (fetch : Nat → Option Snapshot) (cancelOk : Bool) (transactionId : String)
    (intervalMs timeoutMs : Nat) (hpos : 0 < intervalMs)
    (snap0 : Snapshot) (h0 : fetch 0 = some snap0) :
    (∀ e, pollTransaction fetch cancelOk transactionId intervalMs timeoutMs
      ≠ Except.error (PollErr.initialFetch e)) ∧
    pollTransaction fetch cancelOk transactionId intervalMs timeoutMs
      ≠ Except.error PollErr.fuelOut ∧
    (isTerminalStatus snap0.status = false →
      (∀ k, 1 ≤ k → fetch k = none) →
      ∃ elapsed,
        pollTransaction fetch cancelOk transactionId intervalMs timeoutMs
          = Except.error
              (PollErr.timeout transactionId timeoutMs snap0.status elapsed) ∧
        timeoutMs < elapsed ∧ elapsed ≤ timeoutMs + intervalMs) := by
  have hfuel : pollFuel intervalMs timeoutMs
      = (timeoutMs / intervalMs + 1) + 1 := by
    simp [pollFuel]
  have hbud : timeoutMs < 0 + (timeoutMs / intervalMs + 1) * intervalMs := by
    simpa using timeoutMs_lt_budget intervalMs timeoutMs hpos
  refine ⟨?_, ?_, ?_⟩
  · intro e
    rw [pollTransaction_eq_of_fetch0 fetch cancelOk transactionId intervalMs
      timeoutMs snap0 h0]
    cases hl : pollLoop fetch intervalMs timeoutMs
        (pollFuel intervalMs timeoutMs) snap0.status snap0 1 0 <;> simp
  · rw [pollTransaction_eq_of_fetch0 fetch cancelOk transactionId intervalMs
      timeoutMs snap0 h0]
    cases hl : pollLoop fetch intervalMs timeoutMs
        (pollFuel intervalMs timeoutMs) snap0.status snap0 1 0 with
    | fuelOut =>
      exfalso
      apply pollLoop_ne_fuelOut fetch intervalMs timeoutMs
        (timeoutMs / intervalMs + 1) snap0.status snap0 1 0 hbud
      rw [← hfuel]
      exact hl
    | timedOut last el => simp
    | finished st inf el => simp
  · intro hst0 hrest
    have hnt : ∀ k snap, fetch k = some snap →
        isTerminalStatus snap.status = false := by
      intro k snap hf
      cases k with
      | zero =>
        rw [h0] at hf
        injection hf with hf'
        rw [← hf']
        exact hst0
      | succ j =>
        rw [hrest (j + 1) (by omega)] at hf
        cases hf
    obtain ⟨last, el, heq, hb1, hb2, hprov⟩ :=
      pollLoop_timedOut_of_never_terminal fetch intervalMs timeoutMs hnt
        (timeoutMs / intervalMs + 1) snap0.status snap0 1 0 hst0 (by omega) hbud
    have hlast : last = snap0.status := by
      rcases hprov with h | h
      · exact h
      · obtain ⟨j, snap, hf, hs⟩ := h
        cases j with
        | zero =>
          rw [h0] at hf
          injection hf with hf'
          rw [← hs, ← hf']
        | succ i =>
          rw [hrest (i + 1) (by omega)] at hf
          cases hf
    have heq' : pollLoop fetch intervalMs timeoutMs
        (pollFuel intervalMs timeoutMs) snap0.status snap0 1 0
        = LoopOutcome.timedOut snap0.status el := by
      rw [hfuel]
      rw [hlast] at heq
      exact heq
    exact ⟨el,
      pollTransaction_eq_timedOut fetch cancelOk transactionId intervalMs
        timeoutMs snap0 snap0.status el h0 heq', hb1, hb2⟩

/-- C8 amended witness -/
theorem pollTransaction_inloop_fetch_errors_retry_witness :
    0 < 3 ∧
    ((∀ e, pollTransaction
        (fun k => if k = 0 then some ⟨TransactionStatus.SUBMITTED, none⟩
          else none) true "tx" 3 7
      ≠ Except.error (PollErr.initialFetch e)) ∧
    pollTransaction
        (fun k => if k = 0 then some ⟨TransactionStatus.SUBMITTED, none⟩
          else none) true "tx" 3 7
      ≠ Except.error PollErr.fuelOut ∧
    (isTerminalStatus
        (Snapshot.mk TransactionStatus.SUBMITTED none).status = false →
      (∀ k, 1 ≤ k →
        (fun k => if k = 0 then some ⟨TransactionStatus.SUBMITTED, none⟩
          else none) k = (none : Option Snapshot)) →
      ∃ elapsed,
        pollTransaction
            (fun k => if k = 0 then some ⟨TransactionStatus.SUBMITTED, none⟩
              else none) true "tx" 3 7
          = Except.error (PollErr.timeout "tx" 7
              (Snapshot.mk TransactionStatus.SUBMITTED none).status elapsed) ∧
        7 < elapsed ∧ elapsed ≤ 7 + 3)) :=
  ⟨by norm_num,
   pollTransaction_inloop_fetch_errors_retry _ true "tx" 3 7 (by norm_num)
     ⟨TransactionStatus.SUBMITTED, none⟩ rfl⟩

/-- C4 -/
theorem signedTransaction_reassembly
    (serialize : SignedTx → List Nat) (fetch : Nat → Option Snapshot)
    (cancelOk : Bool) (transactionId : String) (intervalMs timeoutMs : Nat)
    (tx : UnsignedTx) (chainId : Nat) (txInfo : Snapshot)
    (hpoll : pollTransactionUntilSuccess fetch cancelOk transactionId
      intervalMs timeoutMs = Except.ok txInfo) :
    ((txInfo.signedMessages = none ∨ txInfo.signedMessages = some []) →
      signTransactionViaFireblocks serialize fetch cancelOk transactionId
          intervalMs timeoutMs tx chainId
        = Except.error (SignErr.noSignature transactionId)) ∧
    ∀ m rest, txInfo.signedMessages = some (m :: rest) →
      signTransactionViaFireblocks serialize fetch cancelOk transactionId
          intervalMs timeoutMs tx chainId
        = Except.ok ("0x" ++ bytesToHex (serialize
            { nonce := tx.nonce
              gasPrice := tx.gasPrice
              gasLimit := tx.gasLimit
              «to» := tx.«to»
              value := tx.value
              data := tx.data
              r := m.signature.r
              s := m.signature.s
              v := chainId * 2 + (m.signature.v + 35) })) := by
  constructor
  · intro hsm
    unfold signTransactionViaFireblocks
    rw [hpoll]
    show extractSignedTransaction serialize transactionId tx chainId txInfo = _
    rcases hsm with hsome | hsome <;>
      · unfold extractSignedTransaction
        rw [hsome]
  · intro m rest hsome
    unfold signTransactionViaFireblocks
    rw [hpoll]
    show extractSignedTransaction serialize transactionId tx chainId txInfo = _
    unfold extractSignedTransaction
    rw [hsome]
    rfl

/-- C4 witness -/
theorem signedTransaction_reassembly_witness :
    signTransactionViaFireblocks sampleSerialize
        (fun _ => some ⟨TransactionStatus.COMPLETED, some [⟨⟨9, 8, 1⟩⟩]⟩) true
        "tx" 1 5 ⟨7, 100, 21000, "0xd", 55, []⟩ 5
      = Except.ok ("0x" ++ bytesToHex (sampleSerialize
          { nonce := 7, gasPrice := 100, gasLimit := 21000, «to» := "0xd",
            value := 55, data := [], r := 9, s := 8,
            v := 5 * 2 + (1 + 35) })) :=
  (signedTransaction_reassembly sampleSerialize
      (fun _ => some ⟨TransactionStatus.COMPLETED, some [⟨⟨9, 8, 1⟩⟩]⟩) true
      "tx" 1 5 ⟨7, 100, 21000, "0xd", 55, []⟩ 5
      ⟨TransactionStatus.COMPLETED, some [⟨⟨9, 8, 1⟩⟩]⟩ rfl).2
    ⟨⟨9, 8, 1⟩⟩ [] rfl

end FireblocksClient

namespace FireblocksClient

lemma sumAmounts_cons (u : UTXO) (l : List UTXO) :
    sumAmounts (u :: l) = utxoAmount u + sumAmounts l := by
  simp [sumAmounts]

lemma sumAmounts_append (a b : List UTXO) :
    sumAmounts (a ++ b) = sumAmounts a + sumAmounts b := by
  simp [sumAmounts]

lemma insertDesc_perm (u : UTXO) (l : List UTXO) :
    (insertDesc u l).Perm (u :: l) := by
  induction l with
  | nil => exact List.Perm.refl _
  | cons v vs ih =>
    by_cases h : utxoAmount v ≤ utxoAmount u
    · simp [insertDesc, h]
    · simp only [insertDesc, if_neg h]
      exact (ih.cons v).trans (List.Perm.swap u v vs)

lemma sortUTXOsDesc_perm (l : List UTXO) : (sortUTXOsDesc l).Perm l := by
  induction l with
  | nil => exact List.Perm.refl _
  | cons u us ih =>
    exact (insertDesc_perm u (sortUTXOsDesc us)).trans (ih.cons u)

lemma sumAmounts_sortUTXOsDesc (l : List UTXO) :
    sumAmounts (sortUTXOsDesc l) = sumAmounts l :=
  ((sortUTXOsDesc_perm l).map utxoAmount).sum_eq

lemma selectLoop_eq_greedyTake (targetAmount : ℚ) :
    ∀ (l acc : List UTXO) (tot : ℚ),
      selectLoop targetAmount l acc tot
        = (acc ++ greedyTake targetAmount tot l,
           tot + sumAmounts (greedyTake targetAmount tot l)) := by
  intro l
  induction l with
  | nil =>
    intro acc tot
    simp [selectLoop, greedyTake, sumAmounts]
  | cons u rest ih =>
    intro acc tot
    by_cases h : targetAmount ≤ tot
    · simp [selectLoop, greedyTake, h, sumAmounts]
    · simp only [selectLoop, greedyTake, if_neg h]
      rw [ih (acc ++ [u]) (tot + utxoAmount u), sumAmounts_cons]
      simp [List.append_assoc]
      ring

lemma greedyTake_pre (targetAmount : ℚ) :
    ∀ (l : List UTXO) (tot : ℚ), greedyTake targetAmount tot l <+: l := by
  intro l
  induction l with
  | nil =>
    intro tot
    exact ⟨[], rfl⟩
  | cons u rest ih =>
    intro tot
    by_cases h : targetAmount ≤ tot
    · refine ⟨u :: rest, ?_⟩
      simp [greedyTake, h]
    · obtain ⟨s, hs⟩ := ih (tot + utxoAmount u)
      refine ⟨s, ?_⟩
      simp only [greedyTake, if_neg h, List.cons_append]
      rw [hs]

lemma greedyTake_all_or_reach (targetAmount : ℚ) :
    ∀ (l : List UTXO) (tot : ℚ),
      greedyTake targetAmount tot l = l ∨
      targetAmount ≤ tot + sumAmounts (greedyTake targetAmount tot l) := by
  intro l
  induction l with
  | nil =>
    intro tot
    exact Or.inl rfl
  | cons u rest ih =>
    intro tot
    by_cases h : targetAmount ≤ tot
    · right
      simp only [greedyTake, if_pos h, sumAmounts]
      simpa using h
    · rcases ih (tot + utxoAmount u) with hall | hreach
      · left
        simp only [greedyTake, if_neg h, hall]
      · right
        simp only [greedyTake, if_neg h, sumAmounts_cons]
        linarith

lemma greedyTake_short_lt (targetAmount : ℚ) :
    ∀ (l : List UTXO) (tot : ℚ) (n : Nat),
      n < (greedyTake targetAmount tot l).length →
      tot + sumAmounts ((greedyTake targetAmount tot l).take n) < targetAmount := by
  intro l
  induction l with
  | nil =>
    intro tot n hn
    simp [greedyTake] at hn
  | cons u rest ih =>
    intro tot n hn
    by_cases h : targetAmount ≤ tot
    · simp [greedyTake, h] at hn
    · simp only [greedyTake, if_neg h] at hn ⊢
      cases n with
      | zero =>
        simp only [List.take_zero, sumAmounts]
        simpa using lt_of_not_ge h
      | succ m =>
        simp only [List.length_cons, Nat.succ_lt_succ_iff] at hn
        have := ih (tot + utxoAmount u) m hn
        simp only [List.take_succ_cons, sumAmounts_cons]
        linarith

lemma take_eq_of_pre {p l : List UTXO} (h : p <+: l) {n : Nat}
    (hn : n ≤ p.length) : l.take n = p.take n := by
  obtain ⟨s, rfl⟩ := h
  rw [List.take_append_eq_append_take]
  rw [Nat.sub_eq_zero_of_le hn]
  simp

end FireblocksClient

namespace FireblocksClient

lemma selectUTXOsForAmount_eq (utxos : List UTXO) (targetAmount : ℚ) :
    selectUTXOsForAmount utxos targetAmount
      = if sumAmounts (greedyTake targetAmount 0 (sortUTXOsDesc utxos))
            < targetAmount then
          Except.error ⟨"targetAmount", insufficientUTXOsMsg targetAmount
            (sumAmounts (greedyTake targetAmount 0 (sortUTXOsDesc utxos)))⟩
        else
          Except.ok (greedyTake targetAmount 0 (sortUTXOsDesc utxos)) := by
  have h0 : selectUTXOsForAmount utxos targetAmount
      = if (selectLoop targetAmount (sortUTXOsDesc utxos) [] 0).2
            < targetAmount then
          Except.error ⟨"targetAmount", insufficientUTXOsMsg targetAmount
            (selectLoop targetAmount (sortUTXOsDesc utxos) [] 0).2⟩
        else Except.ok (selectLoop targetAmount (sortUTXOsDesc utxos) [] 0).1 :=
    rfl
  rw [h0, selectLoop_eq_greedyTake targetAmount (sortUTXOsDesc utxos) [] 0]
  simp

/-- C6 -/
theorem selectUTXOsForAmount_shortest_sufficient (utxos : List UTXO)
    (targetAmount : ℚ) (hpos : 0 < targetAmount)
    (hnn : ∀ u ∈ utxos, 0 ≤ utxoAmount u) :
    (∀ sel, selectUTXOsForAmount utxos targetAmount = Except.ok sel →
      sel <+: sortUTXOsDesc utxos ∧
      targetAmount ≤ sumAmounts sel ∧
      ∀ n, n < sel.length →
        sumAmounts ((sortUTXOsDesc utxos).take n) < targetAmount) ∧
    (sumAmounts utxos < targetAmount →
      selectUTXOsForAmount utxos targetAmount
        = Except.error ⟨"targetAmount",
            insufficientUTXOsMsg targetAmount (sumAmounts utxos)⟩) ∧
    (∀ e, selectUTXOsForAmount utxos targetAmount = Except.error e →
      sumAmounts utxos < targetAmount) := by
  have hpre := greedyTake_pre targetAmount (sortUTXOsDesc utxos) 0
  have hsel := selectUTXOsForAmount_eq utxos targetAmount
  have hGlow : ∀ hcase : sumAmounts
      (greedyTake targetAmount 0 (sortUTXOsDesc utxos)) < targetAmount,
      greedyTake targetAmount 0 (sortUTXOsDesc utxos) = sortUTXOsDesc utxos := by
    intro hcase
    rcases greedyTake_all_or_reach targetAmount (sortUTXOsDesc utxos) 0 with
      h | h
    · exact h
    · rw [zero_add] at h
      linarith
  refine ⟨?_, ?_, ?_⟩
  · intro sel hok
    rw [hsel] at hok
    by_cases hcase : sumAmounts
        (greedyTake targetAmount 0 (sortUTXOsDesc utxos)) < targetAmount
    · rw [if_pos hcase] at hok
      cases hok
    · rw [if_neg hcase] at hok
      injection hok with hsame
      subst hsame
      refine ⟨hpre, le_of_not_gt hcase, ?_⟩
      intro n hn
      have hlt := greedyTake_short_lt targetAmount (sortUTXOsDesc utxos) 0 n hn
      rw [zero_add] at hlt
      rw [take_eq_of_pre hpre (le_of_lt hn)]
      exact hlt
  · intro hsum
    have hcase : sumAmounts
        (greedyTake targetAmount 0 (sortUTXOsDesc utxos)) < targetAmount := by
      by_contra hge
      push_neg at hge
      obtain ⟨s, hs⟩ := hpre
      have hsplit : sumAmounts (sortUTXOsDesc utxos)
          = sumAmounts (greedyTake targetAmount 0 (sortUTXOsDesc utxos))
            + sumAmounts s := by
        rw [← sumAmounts_append, hs]
      have hnnSorted : ∀ u ∈ sortUTXOsDesc utxos, 0 ≤ utxoAmount u := by
        intro u hu
        exact hnn u ((sortUTXOsDesc_perm utxos).mem_iff.mp hu)
      have hnns : 0 ≤ sumAmounts s := by
        apply List.sum_nonneg
        intro x hx
        obtain ⟨u, hu, rfl⟩ := List.mem_map.mp hx
        refine hnnSorted u ?_
        rw [← hs]
        exact List.mem_append_right _ hu
      have := sumAmounts_sortUTXOsDesc utxos
      linarith
    rw [hsel, if_pos hcase, hGlow hcase, sumAmounts_sortUTXOsDesc]
  · intro e herr
    rw [hsel] at herr
    by_cases hcase : sumAmounts
        (greedyTake targetAmount 0 (sortUTXOsDesc utxos)) < targetAmount
    · rw [← sumAmounts_sortUTXOsDesc utxos, ← hGlow hcase]
      exact hcase
    · rw [if_neg hcase] at herr
      cases herr

/-- C6 witness -/
theorem selectUTXOsForAmount_shortest_sufficient_witness :
    selectUTXOsForAmount [sampleUTXO 5, sampleUTXO 3, sampleUTXO 2] 6
      = Except.ok [sampleUTXO 5, sampleUTXO 3] ∧
    (0 : ℚ) < 6 ∧
    ([sampleUTXO 5, sampleUTXO 3] <+:
        sortUTXOsDesc [sampleUTXO 5, sampleUTXO 3, sampleUTXO 2] ∧
      (6 : ℚ) ≤ sumAmounts [sampleUTXO 5, sampleUTXO 3] ∧
      ∀ n, n < ([sampleUTXO 5, sampleUTXO 3] : List UTXO).length →
        sumAmounts
            ((sortUTXOsDesc [sampleUTXO 5, sampleUTXO 3, sampleUTXO 2]).take n)
          < 6) :=
  ⟨by norm_num [selectUTXOsForAmount, sortUTXOsDesc, insertDesc, selectLoop,
      sampleUTXO, utxoAmount],
   by norm_num,
   (selectUTXOsForAmount_shortest_sufficient
       [sampleUTXO 5, sampleUTXO 3, sampleUTXO 2] 6 (by norm_num)
       (by
         intro u hu
         fin_cases hu <;> norm_num [sampleUTXO, utxoAmount])).1
     [sampleUTXO 5, sampleUTXO 3]
     (by norm_num [selectUTXOsForAmount, sortUTXOsDesc, insertDesc, selectLoop,
        sampleUTXO, utxoAmount])⟩

/-- C10 -/
theorem selectUTXOsForAmountHeap_no_mutation (heap : List (List UTXO))
    (r : Nat) (targetAmount : ℚ) (hr : r < heap.length) :
    (selectUTXOsForAmountHeap heap r targetAmount).2.get? r = heap.get? r ∧
    (selectUTXOsForAmountHeap heap r targetAmount).1
      = selectUTXOsForAmount (heap.getD r []) targetAmount := by
  have hcopy : (heap ++ [heap.getD r []]).getD heap.length []
      = heap.getD r [] := by
    simp [List.getD, List.get?_append_right (le_refl heap.length)]
  constructor
  · show ((heap ++ [heap.getD r []]).set heap.length
        (sortUTXOsDesc ((heap ++ [heap.getD r []]).getD heap.length []))).get? r
      = heap.get? r
    rw [List.get?_set_ne _ _ (by omega)]
    exact List.get?_append hr
  · show (if (selectLoop targetAmount
          (((heap ++ [heap.getD r []]).set heap.length
            (sortUTXOsDesc ((heap ++ [heap.getD r []]).getD heap.length
              []))).getD heap.length []) [] 0).2 < targetAmount then _ else _)
      = selectUTXOsForAmount (heap.getD r []) targetAmount
    rw [hcopy]
    have hget : (((heap ++ [heap.getD r []]).set heap.length
        (sortUTXOsDesc (heap.getD r []))).getD heap.length [])
        = sortUTXOsDesc (heap.getD r []) := by
      simp [List.getD, List.get?_set_eq,
        show heap.length < (heap ++ [heap.getD r []]).length by
          simp]
    rw [hget]
    rfl

/-- C10 witness -/
theorem selectUTXOsForAmountHeap_no_mutation_witness :
    0 < ([[sampleUTXO 2, sampleUTXO 5, sampleUTXO 3]] : List (List UTXO)).length ∧
    ((selectUTXOsForAmountHeap [[sampleUTXO 2, sampleUTXO 5, sampleUTXO 3]] 0 6).2.get? 0
        = ([[sampleUTXO 2, sampleUTXO 5, sampleUTXO 3]] : List (List UTXO)).get? 0 ∧
      (selectUTXOsForAmountHeap [[sampleUTXO 2, sampleUTXO 5, sampleUTXO 3]] 0 6).1
        = selectUTXOsForAmount
            (([[sampleUTXO 2, sampleUTXO 5, sampleUTXO 3]] :
              List (List UTXO)).getD 0 []) 6) :=
  ⟨by norm_num,
   selectUTXOsForAmountHeap_no_mutation
     [[sampleUTXO 2, sampleUTXO 5, sampleUTXO 3]] 0 6 (by norm_num)⟩

end FireblocksClient
